import Mathlib

/-!
Shallow embedding of the gleam-engine GL renderer core.

The definitions below translate the C++ sources of the repository
(`src/src/renderer/gl/gl_renderer_impl.cpp`, `src/src/renderer/gl/gl_programs.cpp`,
`src/src/renderer/gl/gl_program.hpp`, `src/include/gleam/math/vector3.hpp`)
into Lean. Machine floats are modelled as rationals (ℚ), except the
`Vector3` normalization development, which uses ℝ because it involves a
square root. Matrix values produced by math code that is external to the
sources (matrix multiply, inverse, transpose, 3×3 block extraction) are
modelled as symbolic expression trees, which is faithful to the call
structure the renderer builds.
-/

namespace Gleam

/-- RGB color; the source stores three floats, modelled as rationals. -/
structure Color where
  r : ℚ
  g : ℚ
  b : ℚ
deriving DecidableEq, Repr

/-- `Color * float` component-wise scaling, as in `light->color * light->intensity`. -/
def Color.scale (c : Color) (n : ℚ) : Color := ⟨c.r * n, c.g * n, c.b * n⟩

/-- Component-wise color addition. Used only to state the specification's
additive-accumulation reading of the ambient light uniform. -/
def Color.add (c d : Color) : Color := ⟨c.r + d.r, c.g + d.g, c.b + d.b⟩

/-- The zero color `{0.0f, 0.0f, 0.0f}`. -/
def Color.black : Color := ⟨0, 0, 0⟩

/-- A 3-component vector of rationals (payload values passed to light uniforms). -/
structure Vec3 where
  x : ℚ
  y : ℚ
  z : ℚ
deriving DecidableEq, Repr

/-- Symbolic 4×4 matrix expressions built by the renderer. -/
inductive Mat4Expr where
  | projection
  | view
  | world
  | mul (a b : Mat4Expr)
deriving DecidableEq, Repr

/-- Symbolic 3×3 matrix expressions: `Matrix3(m)` extracts the upper-left 3×3
block, `inv` is `Inverse`, `transpose` is `Transpose`, and `texTransform t`
stands for `texture->GetTransform()` of the texture with id `t`. -/
inductive Mat3Expr where
  | block (m : Mat4Expr)
  | inv (m : Mat3Expr)
  | transpose (m : Mat3Expr)
  | texTransform (tex : Nat)
deriving DecidableEq, Repr

/-- A uniform value (`UniformValue` is a variant over int/float/Color/matrix/vector). -/
inductive UVal where
  | i (n : Int)
  | f (q : ℚ)
  | c (col : Color)
  | v2 (x y : ℚ)
  | v3 (v : Vec3)
  | m3 (m : Mat3Expr)
  | m4 (m : Mat4Expr)
deriving DecidableEq, Repr

/-! ### Lights and `Renderer::Impl::UpdateLights` -/

/-- The closed set of light variants (`LightType`). -/
inductive LightType where
  | ambient
  | directional
  | point
  | spot
deriving DecidableEq, Repr

/-- Numeric codes for `std::to_underlying(LightType)`. The enum header is not
among the sources; the codes are positional and no claim depends on them. -/
def LightType.code : LightType → Int
  | .ambient => 0
  | .directional => 1
  | .point => 2
  | .spot => 3

/-- Attenuation parameters `{base, linear, quadratic}` of point and spot lights. -/
structure Attenuation where
  base : ℚ
  linear : ℚ
  quadratic : ℚ
deriving DecidableEq, Repr

/-- A light node, flattened over the variant fields the renderer reads:
`GetType()`, `color`, `intensity`, `Direction()`, `GetWorldPosition()`,
`angle`, `penumbra`, `attenuation`. -/
structure Light where
  type : LightType
  color : Color
  intensity : ℚ
  direction : Vec3
  worldPosition : Vec3
  angle : ℚ
  penumbra : ℚ
  attenuation : Attenuation
deriving DecidableEq, Repr

/-- The file-scope `light_uniforms` table: a `std::array<std::string, 9>`. -/
def lightUniforms : List String :=
  ["u_Lights[0]", "u_Lights[1]", "u_Lights[2]", "u_Lights[3]", "u_Lights[4]",
   "u_Lights[5]", "u_Lights[6]", "u_Lights[7]", "u_Lights[8]"]

/-- State threaded through the loop of `UpdateLights`: the running ambient
color, the slot index `idx`, the `SetUniform` calls issued so far, and the
list of indices at which `light_uniforms[idx]` has been read (the source
binds `const auto& uniform = light_uniforms[idx]` for every light, before
dispatching on its type). -/
structure ULState where
  ambient : Color
  idx : Nat
  settings : List (String × UVal)
  accesses : List Nat
deriving DecidableEq, Repr

/-- One iteration of the loop in `Renderer::Impl::UpdateLights`.
`xform v w` models `Vector3(camera->view_transform * Vector4(v, w))` and
`cosF` models `std::cos`; both operations live outside the sources and are
passed as parameters. -/
def updateLightsStep (xform : Vec3 → ℚ → Vec3) (cosF : ℚ → ℚ)
    (s : ULState) (light : Light) : ULState :=
  let uniform := lightUniforms.getD s.idx ""
  let accesses := s.accesses ++ [s.idx]
  let lightColor := light.color.scale light.intensity
  match light.type with
  | .ambient =>
      { s with ambient := lightColor, accesses := accesses }
  | .directional =>
      { s with
        settings := s.settings ++
          [(uniform ++ ".Type", .i LightType.directional.code),
           (uniform ++ ".Color", .c lightColor),
           (uniform ++ ".Direction", .v3 (xform light.direction 0))],
        idx := s.idx + 1,
        accesses := accesses }
  | .point =>
      { s with
        settings := s.settings ++
          [(uniform ++ ".Type", .i LightType.point.code),
           (uniform ++ ".Color", .c lightColor),
           (uniform ++ ".Position", .v3 (xform light.worldPosition 1)),
           (uniform ++ ".Base", .f light.attenuation.base),
           (uniform ++ ".Linear", .f light.attenuation.linear),
           (uniform ++ ".Quadratic", .f light.attenuation.quadratic)],
        idx := s.idx + 1,
        accesses := accesses }
  | .spot =>
      { s with
        settings := s.settings ++
          [(uniform ++ ".Type", .i LightType.spot.code),
           (uniform ++ ".Color", .c lightColor),
           (uniform ++ ".Direction", .v3 (xform light.direction 0)),
           (uniform ++ ".Position", .v3 (xform light.worldPosition 1)),
           (uniform ++ ".ConeCos", .f (cosF light.angle)),
           (uniform ++ ".PenumbraCos", .f (cosF (light.angle * (1 - light.penumbra)))),
           (uniform ++ ".Base", .f light.attenuation.base),
           (uniform ++ ".Linear", .f light.attenuation.linear),
           (uniform ++ ".Quadratic", .f light.attenuation.quadratic)],
        idx := s.idx + 1,
        accesses := accesses }

/-- `Renderer::Impl::UpdateLights`: folds the loop body over the light list
starting from ambient = black and `idx = 0`, then issues the single final
`SetUniform("u_AmbientLight", ambient_light)`. -/
def updateLights (xform : Vec3 → ℚ → Vec3) (cosF : ℚ → ℚ)
    (lights : List Light) : ULState :=
  let s := lights.foldl (updateLightsStep xform cosF) ⟨Color.black, 0, [], []⟩
  { s with settings := s.settings ++ [("u_AmbientLight", .c s.ambient)] }

/-- The specification's reading of the ambient uniform: the additive sum of
`color × intensity` over all ambient lights (written from the spec's words,
for comparison with the behavior of `updateLights`). -/
def ambientSumSpec (lights : List Light) : Color :=
  (lights.filter (fun l => decide (l.type = LightType.ambient))).foldl
    (fun acc l => acc.add (l.color.scale l.intensity)) Color.black

/-- The value `updateLights` actually leaves in the ambient uniform: the
`color × intensity` of the last ambient light, or black when there is none. -/
def lastAmbientContribution (lights : List Light) : Color :=
  lights.foldl
    (fun acc l => if l.type = LightType.ambient then l.color.scale l.intensity else acc)
    Color.black

/-- Number of non-ambient lights in a list (each consumes one slot). -/
def countNA (lights : List Light) : Nat :=
  (lights.filter (fun l => decide (l.type ≠ LightType.ambient))).length

/-- The sequence of indices at which the loop reads `light_uniforms`,
starting from slot index `i`: one access per light, at the current index,
which advances only after a non-ambient light. -/
def accessesFrom (i : Nat) : List Light → List Nat
  | [] => []
  | l :: tl => i :: accessesFrom (if l.type = LightType.ambient then i else i + 1) tl

end Gleam

namespace Gleam

/-! ### Lemmas about the `UpdateLights` loop -/

/-- Unfolding lemma: each loop iteration records one table access at the
current slot index. -/
lemma updateLightsStep_accesses (x : Vec3 → ℚ → Vec3) (c : ℚ → ℚ)
    (s : ULState) (l : Light) :
    (updateLightsStep x c s l).accesses = s.accesses ++ [s.idx] := by
  cases h : l.type <;> simp [updateLightsStep, h]

/-- Unfolding lemma: the slot index advances exactly when the light is not
ambient. -/
lemma updateLightsStep_idx (x : Vec3 → ℚ → Vec3) (c : ℚ → ℚ)
    (s : ULState) (l : Light) :
    (updateLightsStep x c s l).idx =
      if l.type = LightType.ambient then s.idx else s.idx + 1 := by
  cases h : l.type <;> simp [updateLightsStep, h]

/-- Unfolding lemma: the running ambient color is overwritten by an ambient
light and untouched otherwise. -/
lemma updateLightsStep_ambient (x : Vec3 → ℚ → Vec3) (c : ℚ → ℚ)
    (s : ULState) (l : Light) :
    (updateLightsStep x c s l).ambient =
      if l.type = LightType.ambient then l.color.scale l.intensity else s.ambient := by
  cases h : l.type <;> simp [updateLightsStep, h]

lemma countNA_nil : countNA [] = 0 := rfl

lemma countNA_cons (l : Light) (tl : List Light) :
    countNA (l :: tl) =
      (if l.type = LightType.ambient then 0 else 1) + countNA tl := by
  by_cases h : l.type = LightType.ambient <;> simp [countNA, List.filter_cons, h] <;> omega

lemma countNA_take_le (k : Nat) (ls : List Light) :
    countNA (ls.take k) ≤ countNA ls :=
  List.Sublist.length_le ((ls.take_sublist k).filter _)

/-- After folding the loop over `ls`, the slot index has advanced by the
number of non-ambient lights. -/
lemma foldl_updateLightsStep_idx (x : Vec3 → ℚ → Vec3) (c : ℚ → ℚ) :
    ∀ (ls : List Light) (s : ULState),
      (ls.foldl (updateLightsStep x c) s).idx = s.idx + countNA ls := by
  intro ls
  induction ls with
  | nil => intro s; simp [countNA_nil]
  | cons l tl ih =>
      intro s
      rw [List.foldl_cons, ih, updateLightsStep_idx, countNA_cons]
      by_cases h : l.type = LightType.ambient <;> simp [h] <;> omega

/-- After folding the loop over `ls`, the table accesses recorded are the
original ones followed by `accessesFrom` the starting index. -/
lemma foldl_updateLightsStep_accesses (x : Vec3 → ℚ → Vec3) (c : ℚ → ℚ) :
    ∀ (ls : List Light) (s : ULState),
      (ls.foldl (updateLightsStep x c) s).accesses =
        s.accesses ++ accessesFrom s.idx ls := by
  intro ls
  induction ls with
  | nil => intro s; simp [accessesFrom]
  | cons l tl ih =>
      intro s
      rw [List.foldl_cons, ih, updateLightsStep_accesses, updateLightsStep_idx,
        accessesFrom]
      by_cases h : l.type = LightType.ambient <;> simp [h]

/-- After folding the loop over `ls`, the running ambient color is the
last-writer-wins fold of the ambient lights. -/
lemma foldl_updateLightsStep_ambient (x : Vec3 → ℚ → Vec3) (c : ℚ → ℚ) :
    ∀ (ls : List Light) (s : ULState),
      (ls.foldl (updateLightsStep x c) s).ambient =
        ls.foldl
          (fun acc l => if l.type = LightType.ambient then l.color.scale l.intensity else acc)
          s.ambient := by
  intro ls
  induction ls with
  | nil => intro s; rfl
  | cons l tl ih =>
      intro s
      rw [List.foldl_cons, ih, List.foldl_cons, updateLightsStep_ambient]

lemma accessesFrom_length (ls : List Light) : ∀ i, (accessesFrom i ls).length = ls.length := by
  induction ls with
  | nil => intro i; rfl
  | cons l tl ih => intro i; simp [accessesFrom, ih]

/-- The `k`-th table access happens at index `i` plus the number of
non-ambient lights among the first `k`. -/
lemma accessesFrom_getD (ls : List Light) :
    ∀ i k, k < ls.length →
      (accessesFrom i ls).getD k 0 = i + countNA (ls.take k) := by
  induction ls with
  | nil => intro i k h; simp at h
  | cons l tl ih =>
      intro i k h
      cases k with
      | zero => simp [accessesFrom, countNA_nil]
      | succ k =>
          have hk : k < tl.length := by simpa using h
          rw [List.take_succ_cons, countNA_cons, accessesFrom]
          by_cases hl : l.type = LightType.ambient
          · rw [if_pos hl, List.getD_cons_succ, ih _ k hk]
            simp [hl]
          · rw [if_neg hl, List.getD_cons_succ, ih _ k hk]
            simp [hl]
            omega

/-- Every recorded access is `i` plus the non-ambient count of some proper
prefix of the list. -/
lemma accessesFrom_mem (ls : List Light) :
    ∀ i a, a ∈ accessesFrom i ls →
      ∃ k, k < ls.length ∧ a = i + countNA (ls.take k) := by
  induction ls with
  | nil => intro i a h; simp [accessesFrom] at h
  | cons l tl ih =>
      intro i a h
      rw [accessesFrom, List.mem_cons] at h
      rcases h with h | h
      · exact ⟨0, by simp, by simp [h, countNA_nil]⟩
      · rcases ih _ a h with ⟨k, hk, hval⟩
        refine ⟨k + 1, by simpa using hk, ?_⟩
        rw [List.take_succ_cons, countNA_cons]
        by_cases hl : l.type = LightType.ambient <;> simp [hl] at hval ⊢ <;> omega

end Gleam

namespace Gleam

/-- No uniform name built from the slot table and a per-light field suffix
collides with the ambient uniform name. -/
lemma lightUniform_name_ne (i : Nat) (suf : String)
    (hs : suf ∈ [".Type", ".Color", ".Direction", ".Position", ".ConeCos",
                 ".PenumbraCos", ".Base", ".Linear", ".Quadratic"]) :
    lightUniforms.getD i "" ++ suf ≠ "u_AmbientLight" := by
  by_cases hi : i < 9
  · interval_cases i <;> fin_cases hs <;> decide
  · have hlen : lightUniforms.length ≤ i := by
      simp only [lightUniforms, List.length]
      omega
    rw [List.getD_eq_default _ _ hlen]
    fin_cases hs <;> decide

/-- The loop of `UpdateLights` never writes a uniform named
`u_AmbientLight`: filtering the settings for that name is invariant under
folding the loop body. -/
lemma foldl_updateLightsStep_ambient_name (x : Vec3 → ℚ → Vec3) (c : ℚ → ℚ) :
    ∀ (ls : List Light) (s : ULState),
      ((ls.foldl (updateLightsStep x c) s).settings.filter
          (fun p => decide (p.1 = "u_AmbientLight"))) =
        s.settings.filter (fun p => decide (p.1 = "u_AmbientLight")) := by
  intro ls
  induction ls with
  | nil => intro s; rfl
  | cons l tl ih =>
      intro s
      rw [List.foldl_cons, ih]
      have h1 := lightUniform_name_ne s.idx ".Type" (by simp)
      have h2 := lightUniform_name_ne s.idx ".Color" (by simp)
      have h3 := lightUniform_name_ne s.idx ".Direction" (by simp)
      have h4 := lightUniform_name_ne s.idx ".Position" (by simp)
      have h5 := lightUniform_name_ne s.idx ".ConeCos" (by simp)
      have h6 := lightUniform_name_ne s.idx ".PenumbraCos" (by simp)
      have h7 := lightUniform_name_ne s.idx ".Base" (by simp)
      have h8 := lightUniform_name_ne s.idx ".Linear" (by simp)
      have h9 := lightUniform_name_ne s.idx ".Quadratic" (by simp)
      simp only [List.getD_eq_getElem?_getD] at h1 h2 h3 h4 h5 h6 h7 h8 h9
      cases h : l.type <;>
        simp [updateLightsStep, h, List.filter_append, h1, h2, h3, h4, h5, h6, h7, h8, h9]

/-- C2 (amended): `UpdateLights` sets `u_AmbientLight` exactly once, as the
final uniform write, to the color × intensity of the LAST ambient light in
the list (black when there is none) — a last-writer-wins overwrite, not an
additive sum — and ambient lights never consume a positional light slot
(the final slot index equals the number of non-ambient lights). -/
theorem updateLights_ambient_single_last_write (x : Vec3 → ℚ → Vec3) (c : ℚ → ℚ)
    (ls : List Light) :
    (updateLights x c ls).settings.getLast? =
        some ("u_AmbientLight", UVal.c (lastAmbientContribution ls)) ∧
    (updateLights x c ls).settings.filter (fun p => decide (p.1 = "u_AmbientLight")) =
        [("u_AmbientLight", UVal.c (lastAmbientContribution ls))] ∧
    (updateLights x c ls).idx = countNA ls := by
  have hamb : (ls.foldl (updateLightsStep x c) ⟨Color.black, 0, [], []⟩).ambient =
      lastAmbientContribution ls := by
    rw [foldl_updateLightsStep_ambient]; rfl
  refine ⟨?_, ?_, ?_⟩
  · unfold updateLights
    simp [hamb]
  · unfold updateLights
    simp only [List.filter_append, foldl_updateLightsStep_ambient_name]
    simp [hamb]
  · unfold updateLights
    simp [foldl_updateLightsStep_idx]

/-- A list of two ambient lights, red then green, both at intensity 1. -/
def twoAmbient : List Light :=
  [⟨.ambient, ⟨1, 0, 0⟩, 1, ⟨0, 0, 1⟩, ⟨0, 0, 0⟩, 0, 0, ⟨1, 0, 0⟩⟩,
   ⟨.ambient, ⟨0, 1, 0⟩, 1, ⟨0, 0, 1⟩, ⟨0, 0, 0⟩, 0, 0, ⟨1, 0, 0⟩⟩]

/-- C2 counterexample: with two ambient lights (red and green, intensity 1)
the code uploads the last one's color (green), while the claimed additive
accumulation would be yellow — so the uniform is not the sum. -/
theorem updateLights_ambient_not_additive :
    (updateLights (fun v _ => v) (fun q => q) twoAmbient).settings.getLast? =
        some ("u_AmbientLight", UVal.c ⟨0, 1, 0⟩) ∧
    ambientSumSpec twoAmbient = ⟨1, 1, 0⟩ ∧
    UVal.c ⟨0, 1, 0⟩ ≠ UVal.c ⟨1, 1, 0⟩ := by
  refine ⟨?_, ?_, ?_⟩
  · simp [updateLights, updateLightsStep, twoAmbient, Color.scale, Color.black]
  · simp [ambientSumSpec, twoAmbient, Color.add, Color.scale, Color.black]
  · simp

/-- C3 (amended): the slot index starts at 0 and is incremented only by
non-ambient lights, every light's table access happens at the index equal
to the count of preceding non-ambient lights, and the slot index never
exceeds 9. The accesses stay inside the 9-entry table provided every light
is preceded by at most 8 non-ambient lights (which the claim's premise of
at most 9 non-ambient lights in total does not by itself guarantee: a
light that follows the ninth non-ambient light is accessed at index 9). -/
theorem updateLights_slot_discipline (x : Vec3 → ℚ → Vec3) (c : ℚ → ℚ)
    (ls : List Light) (h1 : countNA ls ≤ 9)
    (h2 : ∀ k, k < ls.length → countNA (ls.take k) ≤ 8) :
    (updateLights x c ls).idx = countNA ls ∧
    (updateLights x c ls).idx ≤ 9 ∧
    (updateLights x c ls).accesses.length = ls.length ∧
    (∀ k, k < ls.length →
        (updateLights x c ls).accesses.getD k 0 = countNA (ls.take k)) ∧
    (∀ a ∈ (updateLights x c ls).accesses, a < 9) := by
  have hacc : (updateLights x c ls).accesses = accessesFrom 0 ls := by
    unfold updateLights
    simp [foldl_updateLightsStep_accesses]
  have hidx : (updateLights x c ls).idx = countNA ls := by
    unfold updateLights
    simp [foldl_updateLightsStep_idx]
  refine ⟨hidx, hidx ▸ h1, ?_, ?_, ?_⟩
  · rw [hacc, accessesFrom_length]
  · intro k hk
    rw [hacc, accessesFrom_getD _ _ _ hk]
    omega
  · intro a ha
    rw [hacc] at ha
    rcases accessesFrom_mem _ _ _ ha with ⟨k, hk, hval⟩
    have := h2 k hk
    omega

/-- A directional, an ambient and a point light (3 lights, 2 slots). -/
def demoLights : List Light :=
  [⟨.directional, ⟨1, 1, 1⟩, 1, ⟨0, 0, 1⟩, ⟨0, 0, 0⟩, 0, 0, ⟨1, 0, 0⟩⟩,
   ⟨.ambient, ⟨1, 0, 0⟩, 1, ⟨0, 0, 1⟩, ⟨0, 0, 0⟩, 0, 0, ⟨1, 0, 0⟩⟩,
   ⟨.point, ⟨0, 0, 1⟩, 2, ⟨0, 0, 1⟩, ⟨1, 2, 3⟩, 0, 0, ⟨1, 0, 0⟩⟩]

/-- Witness for the slot-discipline theorem on a concrete 3-light list. -/
theorem updateLights_slot_discipline_witness :
    (updateLights (fun v _ => v) (fun q => q) demoLights).idx = countNA demoLights ∧
    (updateLights (fun v _ => v) (fun q => q) demoLights).idx ≤ 9 ∧
    (updateLights (fun v _ => v) (fun q => q) demoLights).accesses.length =
        demoLights.length ∧
    (∀ k, k < demoLights.length →
        (updateLights (fun v _ => v) (fun q => q) demoLights).accesses.getD k 0 =
          countNA (demoLights.take k)) ∧
    (∀ a ∈ (updateLights (fun v _ => v) (fun q => q) demoLights).accesses, a < 9) :=
  updateLights_slot_discipline (fun v _ => v) (fun q => q) demoLights
    (by decide) (by decide)

/-- Nine directional lights followed by one ambient light. -/
def nineDirThenAmbient : List Light :=
  List.replicate 9 ⟨.directional, ⟨1, 1, 1⟩, 1, ⟨0, 0, 1⟩, ⟨0, 0, 0⟩, 0, 0, ⟨1, 0, 0⟩⟩ ++
    [⟨.ambient, ⟨1, 0, 0⟩, 1, ⟨0, 0, 1⟩, ⟨0, 0, 0⟩, 0, 0, ⟨1, 0, 0⟩⟩]

/-- C3 counterexample: a list with exactly 9 non-ambient lights (within the
claimed cap) whose trailing ambient light is still bound against
`light_uniforms[idx]` with `idx = 9` — an access outside the 9-entry
table. -/
theorem updateLights_table_access_out_of_bounds :
    countNA nineDirThenAmbient ≤ 9 ∧
    lightUniforms.length = 9 ∧
    ¬ (∀ a ∈ (updateLights (fun v _ => v) (fun q => q) nineDirThenAmbient).accesses,
        a < lightUniforms.length) := by
  decide

end Gleam

namespace Gleam

/-! ### `GLPrograms::GetProgram` (the program cache)

`ProgramAttributes` is represented by its `key` string: `GetProgram` reads
only `attrs.key` and passes the attributes through to the shader-source
provider, so the provider is modelled as a function of the key. A
`GLProgram` object is identified by a creation ordinal (`nextId`); the
observable side effects — provider requests, `GLProgram` constructions
(compile + link) and informational log lines — are counted in the state. -/

structure ProgState where
  cache : List (String × Nat)
  nextId : Nat
  providerCalls : Nat
  compiles : Nat
  logs : List String
deriving DecidableEq, Repr

/-- `GLPrograms::GetProgram`: on a cached key, return the stored program;
otherwise ask the provider, return null (`none`) when it yields nothing,
and else log once, construct the program, insert it and return it. -/
def getProgram (provider : String → List String) (s : ProgState) (key : String) :
    Option Nat × ProgState :=
  match s.cache.lookup key with
  | some pid => (some pid, s)
  | none =>
      let sources := provider key
      let s1 : ProgState := { s with providerCalls := s.providerCalls + 1 }
      if sources = [] then (none, s1)
      else
        (some s1.nextId,
         { s1 with
            cache := (key, s1.nextId) :: s1.cache,
            nextId := s1.nextId + 1,
            compiles := s1.compiles + 1,
            logs := s1.logs ++ [key] })

/-- C4 (amended): whenever the first `GetProgram` call for a key yields a
program handle (the key was cached, or the provider had sources), a repeat
call with the same key returns the same handle and leaves the state
untouched — no second compile, no second shader-source request, no second
log line; the cache only ever gains entries (no eviction); and a creating
call emits exactly one informational log entry and one compile. The
original claim's unconditional "never a second shader-source request"
fails for keys whose provider yields nothing: those are never cached, so
each call re-queries the provider. -/
theorem getProgram_cache_contract (provider : String → List String)
    (s : ProgState) (key : String)
    (h : s.cache.lookup key ≠ none ∨ provider key ≠ []) :
    getProgram provider (getProgram provider s key).2 key = getProgram provider s key ∧
    (∀ e ∈ s.cache, e ∈ (getProgram provider s key).2.cache) ∧
    ((s.cache.lookup key = none ∧ provider key ≠ []) →
        (getProgram provider s key).1 = some s.nextId ∧
        (getProgram provider s key).2.logs = s.logs ++ [key] ∧
        (getProgram provider s key).2.compiles = s.compiles + 1 ∧
        (getProgram provider s key).2.providerCalls = s.providerCalls + 1) := by
  rcases hl : s.cache.lookup key with _ | pid
  · have hsrc : provider key ≠ [] := by
      rcases h with h | h
      · exact absurd hl h
      · exact h
    refine ⟨?_, ?_, ?_⟩
    · simp [getProgram, hl, hsrc, List.lookup_cons]
    · intro e he
      simp [getProgram, hl, hsrc]
      exact Or.inr he
    · intro _
      simp [getProgram, hl, hsrc]
  · refine ⟨?_, ?_, ?_⟩
    · simp [getProgram, hl]
    · intro e he
      simp [getProgram, hl]
      exact he
    · intro hcontra
      exact absurd hcontra.1 (by simp)

/-- The empty shader-source provider ("no such variant" for every key). -/
def emptyProvider : String → List String := fun _ => []

/-- A provider with a vertex and a fragment stage for every key. -/
def demoProvider : String → List String := fun _ => ["vertex", "fragment"]

/-- The cache state of a freshly constructed `GLPrograms`. -/
def progInit : ProgState := ⟨[], 0, 0, 0, []⟩

/-- Witness for the cache contract: one creating call followed by a
repeated call on a concrete provider and key. -/
theorem getProgram_cache_contract_witness :
    getProgram demoProvider (getProgram demoProvider progInit "phong").2 "phong" =
        getProgram demoProvider progInit "phong" ∧
    (∀ e ∈ progInit.cache, e ∈ (getProgram demoProvider progInit "phong").2.cache) ∧
    ((progInit.cache.lookup "phong" = none ∧ demoProvider "phong" ≠ []) →
        (getProgram demoProvider progInit "phong").1 = some progInit.nextId ∧
        (getProgram demoProvider progInit "phong").2.logs = progInit.logs ++ ["phong"] ∧
        (getProgram demoProvider progInit "phong").2.compiles = progInit.compiles + 1 ∧
        (getProgram demoProvider progInit "phong").2.providerCalls =
          progInit.providerCalls + 1) :=
  getProgram_cache_contract demoProvider progInit "phong" (by decide)

/-- C4 counterexample: for a key whose shader-source provider yields
nothing, `GetProgram` caches nothing, so a repeated call with the same key
does trigger a second shader-source request (provider call count reaches
2), contradicting the claim's unconditional "never a second shader-source
request". -/
theorem getProgram_second_source_request :
    (getProgram emptyProvider progInit "flat").1 = none ∧
    (getProgram emptyProvider progInit "flat").2.providerCalls = 1 ∧
    (getProgram emptyProvider
        (getProgram emptyProvider progInit "flat").2 "flat").2.providerCalls = 2 := by
  decide

end Gleam

namespace Gleam

/-! ### Meshes and `Renderer::Impl::RenderMesh` / `RenderObjects`

`SetUniforms` and `UpdateLights` are embedded separately as pure functions
of their inputs; they contain no early return and do not affect the
control flow of `RenderMesh`, so the per-mesh trace here records only the
outcome, the warning log and the draw/counter effects. Frustum visibility
and program resolution are the results of calls into `frustum_` and
`programs_`; they enter as function parameters. -/

/-- `GeometryPrimitiveType`: triangles (the default), lines, line loop. -/
inductive GeometryPrimitiveType where
  | triangles
  | lines
  | lineLoop
deriving DecidableEq, Repr

/-- Geometry as read by the renderer: `Disposed()`, `VertexData()`,
`IndexData()`, `Attributes()` (only emptiness and item sizes are relevant)
and `primitive`. -/
structure Geometry where
  disposed : Bool
  vertexData : List ℚ
  indexData : List Nat
  attributes : List Nat
  primitive : GeometryPrimitiveType
deriving DecidableEq, Repr

/-- A drawable mesh: a node id (to state draw ordering) and its geometry. -/
structure Mesh where
  id : Nat
  geometry : Geometry
deriving DecidableEq, Repr

/-- A compiled GL program object: `has_errors_` and the GL object id
`program_` (0 until successfully created). -/
structure GLProg where
  hasErrors : Bool
  id : Nat
deriving DecidableEq, Repr

/-- `GLProgram::IsValid()`: `!has_errors_ && program_ > 0`. -/
def GLProg.isValid (p : GLProg) : Bool := !p.hasErrors && decide (0 < p.id)

/-- The three warning conditions logged by `Renderer::Impl::IsValidMesh`. -/
inductive MeshWarning where
  | disposedGeometry
  | noGeometryData
  | noGeometryAttributes
deriving DecidableEq, Repr

/-- `Renderer::Impl::IsValidMesh`: the first failing check, in source
order, or `none` when the mesh is valid. A `some` result is logged as a
warning and makes `IsValidMesh` return false. -/
def isValidMeshCheck (g : Geometry) : Option MeshWarning :=
  if g.disposed then some .disposedGeometry
  else if g.vertexData = [] then some .noGeometryData
  else if g.attributes = [] then some .noGeometryAttributes
  else none

/-- The possible outcomes of one `RenderMesh` call.
`nullProgramDereference` models the path where `GetProgram` returned a
null handle and the source evaluates `program->IsValid()` through it — a
null-pointer member access, i.e. undefined behavior, not a skip. -/
inductive MeshOutcome where
  | skippedInvalid (w : MeshWarning)
  | skippedInvisible
  | nullProgramDereference
  | skippedInvalidProgram
  | drawn (indexed : Bool) (prim : GeometryPrimitiveType)
deriving DecidableEq, Repr

/-- `Renderer::Impl::RenderMesh`: validity check, frustum check, program
resolution and validity, then the draw call (indexed iff index data is
present, with the geometry's primitive topology). -/
def renderMesh (visible : Mesh → Bool) (resolve : Mesh → Option GLProg)
    (m : Mesh) : MeshOutcome :=
  match isValidMeshCheck m.geometry with
  | some w => .skippedInvalid w
  | none =>
      if !(visible m) then .skippedInvisible
      else
        match resolve m with
        | none => .nullProgramDereference
        | some p =>
            if !(p.isValid) then .skippedInvalidProgram
            else .drawn (decide (m.geometry.indexData ≠ [])) m.geometry.primitive

/-- Number of GL draw calls issued for an outcome (one for `drawn`, else zero). -/
def meshDrawCalls : MeshOutcome → Nat
  | .drawn _ _ => 1
  | _ => 0

/-- The increment applied to `rendered_objects_counter_` for an outcome. -/
def meshCounterDelta : MeshOutcome → Nat
  | .drawn _ _ => 1
  | _ => 0

/-- The warnings logged for an outcome. -/
def meshWarnings : MeshOutcome → List MeshWarning
  | .skippedInvalid w => [w]
  | _ => []

/-- Whether an outcome is an issued draw. -/
def MeshOutcome.isDrawn : MeshOutcome → Bool
  | .drawn _ _ => true
  | _ => false

/-- Observable GPU events of `RenderObjects`: draws (tagged with the depth
mask in force) and depth-mask changes. -/
inductive TraceEv where
  | draw (meshId : Nat) (depthMask : Bool)
  | setDepthMask (b : Bool)
deriving DecidableEq, Repr

/-- One render pass: each mesh of the list goes through `RenderMesh`; the
ones that reach the draw call emit a draw event under depth mask `dm`. -/
def renderPassEvents (visible : Mesh → Bool) (resolve : Mesh → Option GLProg)
    (dm : Bool) (ms : List Mesh) : List TraceEv :=
  ms.flatMap fun m =>
    match renderMesh visible resolve m with
    | .drawn _ _ => [TraceEv.draw m.id dm]
    | _ => []

/-- `Renderer::Impl::RenderObjects`: the opaque pass under the incoming
depth mask, `SetDepthMask(false)` only when the transparent list is
nonempty, the transparent pass, then the unconditional
`SetDepthMask(true)`. Returns the event trace, the final depth-mask state
and the frame's rendered-object count. -/
def renderObjects (visible : Mesh → Bool) (resolve : Mesh → Option GLProg)
    (dmInit : Bool) (opaqueMeshes transparentMeshes : List Mesh) :
    List TraceEv × Bool × Nat :=
  let ev1 := renderPassEvents visible resolve dmInit opaqueMeshes
  let dm2 := if transparentMeshes.isEmpty then dmInit else false
  let ev2 := renderPassEvents visible resolve dm2 transparentMeshes
  let maskEv := if transparentMeshes.isEmpty then ([] : List TraceEv)
                else [TraceEv.setDepthMask false]
  let count := ((opaqueMeshes ++ transparentMeshes).map
      (fun m => meshCounterDelta (renderMesh visible resolve m))).sum
  (ev1 ++ maskEv ++ ev2 ++ [TraceEv.setDepthMask true], true, count)

/-- The draws of a trace, in order, with the depth mask each was issued under. -/
def traceDraws (t : List TraceEv) : List (Nat × Bool) :=
  t.flatMap fun e =>
    match e with
    | .draw i b => [(i, b)]
    | _ => []

end Gleam

namespace Gleam

lemma traceDraws_append (t1 t2 : List TraceEv) :
    traceDraws (t1 ++ t2) = traceDraws t1 ++ traceDraws t2 := by
  simp [traceDraws]

lemma traceDraws_nil : traceDraws [] = [] := rfl

lemma traceDraws_singleton_mask (b : Bool) :
    traceDraws [TraceEv.setDepthMask b] = [] := rfl

lemma traceDraws_cons_mask (b : Bool) (t : List TraceEv) :
    traceDraws (TraceEv.setDepthMask b :: t) = traceDraws t := by
  simp [traceDraws]

/-- The draws of a pass are the meshes that reach the draw call, in list
order, under the pass's depth mask. -/
lemma traceDraws_renderPassEvents (visible : Mesh → Bool)
    (resolve : Mesh → Option GLProg) (dm : Bool) (ms : List Mesh) :
    traceDraws (renderPassEvents visible resolve dm ms) =
      (ms.filter fun m => (renderMesh visible resolve m).isDrawn).map
        (fun m => (m.id, dm)) := by
  induction ms with
  | nil => rfl
  | cons m tl ih =>
      rw [renderPassEvents, List.flatMap_cons, traceDraws_append, List.filter_cons]
      cases ho : renderMesh visible resolve m <;>
        simp [ho, MeshOutcome.isDrawn, traceDraws, renderPassEvents] at ih ⊢ <;>
        exact ih

/-- Draw-sequence characterization of `RenderObjects`, for any incoming
depth-mask state. -/
lemma renderObjects_draws (visible : Mesh → Bool) (resolve : Mesh → Option GLProg)
    (dmInit : Bool) (om tm : List Mesh) :
    traceDraws (renderObjects visible resolve dmInit om tm).1 =
      (om.filter fun m => (renderMesh visible resolve m).isDrawn).map
          (fun m => (m.id, dmInit)) ++
      (tm.filter fun m => (renderMesh visible resolve m).isDrawn).map
          (fun m => (m.id, if tm.isEmpty then dmInit else false)) := by
  by_cases h : tm.isEmpty
  · have htm : tm = [] := by simpa using h
    subst htm
    simp [renderObjects, traceDraws_append, traceDraws_renderPassEvents,
      traceDraws_singleton_mask, traceDraws_nil]
  · simp [renderObjects, h, traceDraws_append, traceDraws_renderPassEvents,
      traceDraws_singleton_mask, traceDraws_cons_mask, traceDraws_nil]

/-- The frame counter of `RenderObjects` distributes over a prepended
opaque mesh. -/
lemma renderObjects_count_cons (visible : Mesh → Bool) (resolve : Mesh → Option GLProg)
    (dmInit : Bool) (m : Mesh) (om tm : List Mesh) :
    (renderObjects visible resolve dmInit (m :: om) tm).2.2 =
      meshCounterDelta (renderMesh visible resolve m) +
        (renderObjects visible resolve dmInit om tm).2.2 := by
  simp [renderObjects]

/-- C5: starting from depth writes enabled, the frame's draw sequence is
exactly the opaque list's draws, in collection order, under depth mask
`true`, followed by the transparent list's draws, in collection order,
under depth mask `false`; the trace ends with `SetDepthMask(true)` and the
final depth-mask state is enabled. -/
theorem renderObjects_opaque_then_transparent (visible : Mesh → Bool)
    (resolve : Mesh → Option GLProg) (om tm : List Mesh) :
    traceDraws (renderObjects visible resolve true om tm).1 =
      (om.filter fun m => (renderMesh visible resolve m).isDrawn).map
          (fun m => (m.id, true)) ++
      (tm.filter fun m => (renderMesh visible resolve m).isDrawn).map
          (fun m => (m.id, false)) ∧
    (renderObjects visible resolve true om tm).1.getLast? =
      some (TraceEv.setDepthMask true) ∧
    (renderObjects visible resolve true om tm).2.1 = true := by
  refine ⟨?_, ?_, rfl⟩
  · rw [renderObjects_draws]
    by_cases h : tm.isEmpty
    · have htm : tm = [] := by simpa using h
      subst htm
      simp
    · simp [h]
  · simp [renderObjects]

/-- C6: a mesh whose geometry is disposed, or has empty vertex data, or has
no attributes, is skipped by `RenderMesh` with a single warning naming the
first failing condition (in source order), issues no draw call, does not
increment the rendered-object counter, and — non-fatality — inserting it
at the head of the opaque list changes neither the frame's draw sequence
nor the frame's rendered-object count. -/
theorem renderMesh_invalid_geometry_skipped (visible : Mesh → Bool)
    (resolve : Mesh → Option GLProg) (m : Mesh)
    (h : m.geometry.disposed = true ∨ m.geometry.vertexData = [] ∨
         m.geometry.attributes = []) :
    renderMesh visible resolve m =
      MeshOutcome.skippedInvalid
        (if m.geometry.disposed then MeshWarning.disposedGeometry
         else if m.geometry.vertexData = [] then MeshWarning.noGeometryData
         else MeshWarning.noGeometryAttributes) ∧
    meshDrawCalls (renderMesh visible resolve m) = 0 ∧
    meshCounterDelta (renderMesh visible resolve m) = 0 ∧
    meshWarnings (renderMesh visible resolve m) =
      [if m.geometry.disposed then MeshWarning.disposedGeometry
       else if m.geometry.vertexData = [] then MeshWarning.noGeometryData
       else MeshWarning.noGeometryAttributes] ∧
    (∀ om tm,
      traceDraws (renderObjects visible resolve true (m :: om) tm).1 =
        traceDraws (renderObjects visible resolve true om tm).1 ∧
      (renderObjects visible resolve true (m :: om) tm).2.2 =
        (renderObjects visible resolve true om tm).2.2) := by
  have hw : isValidMeshCheck m.geometry =
      some (if m.geometry.disposed then MeshWarning.disposedGeometry
            else if m.geometry.vertexData = [] then MeshWarning.noGeometryData
            else MeshWarning.noGeometryAttributes) := by
    unfold isValidMeshCheck
    rcases h with h | h | h <;>
      by_cases h1 : m.geometry.disposed <;>
      by_cases h2 : m.geometry.vertexData = [] <;>
      simp_all
  have hr : renderMesh visible resolve m =
      MeshOutcome.skippedInvalid
        (if m.geometry.disposed then MeshWarning.disposedGeometry
         else if m.geometry.vertexData = [] then MeshWarning.noGeometryData
         else MeshWarning.noGeometryAttributes) := by
    unfold renderMesh
    rw [hw]
  refine ⟨hr, by rw [hr]; rfl, by rw [hr]; rfl, by rw [hr]; rfl, ?_⟩
  intro om tm
  constructor
  · rw [renderObjects_draws, renderObjects_draws, List.filter_cons]
    simp [hr, MeshOutcome.isDrawn]
  · rw [renderObjects_count_cons, hr]
    simp [meshCounterDelta]

/-- A valid, visible mesh: one triangle of position data, one attribute. -/
def demoMesh : Mesh := ⟨1, ⟨false, [0, 0, 0], [], [3], .triangles⟩⟩

/-- A mesh whose geometry has been disposed. -/
def disposedMesh : Mesh := ⟨2, ⟨true, [0, 0, 0], [], [3], .triangles⟩⟩

/-- Witness for the invalid-geometry skip theorem on a disposed mesh. -/
theorem renderMesh_invalid_geometry_skipped_witness :
    renderMesh (fun _ => true) (fun _ => some ⟨false, 1⟩) disposedMesh =
      MeshOutcome.skippedInvalid
        (if disposedMesh.geometry.disposed then MeshWarning.disposedGeometry
         else if disposedMesh.geometry.vertexData = [] then MeshWarning.noGeometryData
         else MeshWarning.noGeometryAttributes) ∧
    meshDrawCalls (renderMesh (fun _ => true) (fun _ => some ⟨false, 1⟩) disposedMesh) = 0 ∧
    meshCounterDelta (renderMesh (fun _ => true) (fun _ => some ⟨false, 1⟩) disposedMesh) = 0 ∧
    meshWarnings (renderMesh (fun _ => true) (fun _ => some ⟨false, 1⟩) disposedMesh) =
      [if disposedMesh.geometry.disposed then MeshWarning.disposedGeometry
       else if disposedMesh.geometry.vertexData = [] then MeshWarning.noGeometryData
       else MeshWarning.noGeometryAttributes] ∧
    (∀ om tm,
      traceDraws (renderObjects (fun _ => true) (fun _ => some ⟨false, 1⟩) true
          (disposedMesh :: om) tm).1 =
        traceDraws (renderObjects (fun _ => true) (fun _ => some ⟨false, 1⟩) true om tm).1 ∧
      (renderObjects (fun _ => true) (fun _ => some ⟨false, 1⟩) true
          (disposedMesh :: om) tm).2.2 =
        (renderObjects (fun _ => true) (fun _ => some ⟨false, 1⟩) true om tm).2.2) :=
  renderMesh_invalid_geometry_skipped (fun _ => true) (fun _ => some ⟨false, 1⟩)
    disposedMesh (Or.inl rfl)

/-- C1: on a valid, visible mesh whose shader-source provider yields
nothing, `GetProgram` returns a null handle and `RenderMesh` evaluates
`program->IsValid()` through it — the embedded outcome is the
null-dereference marker, which is distinct from the graceful
invalid-program skip the specification mandates. -/
theorem renderMesh_null_program_dereference :
    renderMesh (fun _ => true) (fun _ => none) demoMesh =
      MeshOutcome.nullProgramDereference ∧
    MeshOutcome.nullProgramDereference ≠ MeshOutcome.skippedInvalidProgram := by
  refine ⟨?_, by decide⟩
  decide

end Gleam

namespace Gleam

/-! ### `Renderer::Impl::SetUniforms`

The uniform uploads are recorded as an ordered list of events, each either
a `SetUniform` (`set`) or a `SetUniformIfExists` (`setIfExists`) call.
Camera and node matrices are symbolic (`Mat4Expr.projection`,
`Mat4Expr.view`, `Mat4Expr.world`); `model_view` is their product
expression. Texture binds (`textures_.Bind`) carry no uniform value and
are elided. -/

/-- The closed set of material variants (`MaterialType`). -/
inductive MaterialType where
  | flatMaterial
  | phongMaterial
  | shaderMaterial
deriving DecidableEq, Repr

/-- The fields of `ProgramAttributes` read by `SetUniforms` and
`RenderMesh`: material type, texture presence, flat-shading flag, and the
per-light-category booleans. -/
structure PA where
  type : MaterialType
  textureMap : Bool
  flatShaded : Bool
  directionalLights : Bool
  pointLights : Bool
  spotLights : Bool
deriving DecidableEq, Repr

/-- Scene fog: the `{LinearFog, ExponentialFog}` variant set. -/
inductive Fog where
  | linear (color : Color) (near far : ℚ)
  | exponential (color : Color) (density : ℚ)
deriving DecidableEq, Repr

/-- Positional codes for `std::to_underlying(FogType)`; the enum header is
not among the sources, and no claim depends on the values. -/
def Fog.typeCode : Fog → Int
  | .linear .. => 0
  | .exponential .. => 1

/-- The material fields read by `SetUniforms`, flattened over the variant
set (`opacity` from the base class; `color`/`specular`/`shininess` from
the Flat and Phong variants; the texture id; the user uniforms of a
`ShaderMaterial`). -/
structure MaterialData where
  opacity : ℚ
  color : Color
  specular : Color
  shininess : ℚ
  textureMap : Option Nat
  uniforms : List (String × UVal)
deriving DecidableEq, Repr

/-- A uniform upload: `SetUniform` or `SetUniformIfExists`. -/
inductive SetEvent where
  | set (name : String) (v : UVal)
  | setIfExists (name : String) (v : UVal)
deriving DecidableEq, Repr

/-- The uniform name an event writes to. -/
def SetEvent.name : SetEvent → String
  | .set n _ => n
  | .setIfExists n _ => n

/-- `model_view = camera->view_transform * mesh->GetWorldTransform()`. -/
def modelViewExpr : Mat4Expr := .mul .view .world

/-- The unconditional header of `SetUniforms`: projection, model-view,
opacity and resolution, all with set-if-exists semantics. -/
def setUniformsHeader (width height : ℚ) (material : MaterialData) : List SetEvent :=
  [SetEvent.setIfExists "u_Projection" (.m4 .projection),
   SetEvent.setIfExists "u_ModelView" (.m4 modelViewExpr),
   SetEvent.setIfExists "u_Opacity" (.f material.opacity),
   SetEvent.setIfExists "u_Resolution" (.v2 width height)]

/-- The fog block of `SetUniforms`. The exponential branch re-uploads
`u_Fog.Type`, exactly as the source does. -/
def fogEvents : Option Fog → List SetEvent
  | none => []
  | some f =>
      [SetEvent.setIfExists "u_Fog.Type" (.i f.typeCode)] ++
      (match f with
       | .linear color near far =>
           [SetEvent.setIfExists "u_Fog.Color" (.c color),
            SetEvent.setIfExists "u_Fog.Near" (.f near),
            SetEvent.setIfExists "u_Fog.Far" (.f far)]
       | .exponential color density =>
           [SetEvent.setIfExists "u_Fog.Type" (.i f.typeCode),
            SetEvent.setIfExists "u_Fog.Color" (.c color),
            SetEvent.setIfExists "u_Fog.Density" (.f density)])

/-- The `FlatMaterial` block of `SetUniforms`. -/
def flatBlockEvents (attrs : PA) (material : MaterialData) : List SetEvent :=
  if attrs.type = MaterialType.flatMaterial then
    [SetEvent.set "u_Color" (.c material.color)] ++
    (if attrs.textureMap then
       [SetEvent.set "u_TextureMap" (.i 0),
        SetEvent.set "u_TextureTransform" (.m3 (.texTransform (material.textureMap.getD 0)))]
     else [])
  else []

/-- The `PhongMaterial` block of `SetUniforms`: the material uniforms (and,
unless flat-shaded, the normal matrix) are guarded by the presence of at
least one directional/point/spot light category; the texture uniforms are
guarded only by texture presence. -/
def phongBlockEvents (attrs : PA) (material : MaterialData) : List SetEvent :=
  if attrs.type = MaterialType.phongMaterial then
    (if attrs.directionalLights || attrs.pointLights || attrs.spotLights then
       [SetEvent.set "u_Material.DiffuseColor" (.c material.color),
        SetEvent.set "u_Material.SpecularColor" (.c material.specular),
        SetEvent.set "u_Material.Shininess" (.f material.shininess)] ++
       (if !attrs.flatShaded then
          [SetEvent.setIfExists "u_NormalMatrix"
             (.m3 (.transpose (.inv (.block modelViewExpr))))]
        else [])
     else []) ++
    (if attrs.textureMap then
       [SetEvent.set "u_TextureMap" (.i 0),
        SetEvent.set "u_TextureTransform" (.m3 (.texTransform (material.textureMap.getD 0)))]
     else [])
  else []

/-- The `ShaderMaterial` block of `SetUniforms`: every user-declared
uniform is uploaded verbatim. -/
def shaderBlockEvents (attrs : PA) (material : MaterialData) : List SetEvent :=
  if attrs.type = MaterialType.shaderMaterial then
    material.uniforms.map (fun p => SetEvent.set p.1 p.2)
  else []

/-- `Renderer::Impl::SetUniforms`: header, fog block, then the three
material-variant blocks, in source order. -/
def setUniforms (width height : ℚ) (fog : Option Fog) (attrs : PA)
    (material : MaterialData) : List SetEvent :=
  setUniformsHeader width height material ++ fogEvents fog ++
    flatBlockEvents attrs material ++ phongBlockEvents attrs material ++
    shaderBlockEvents attrs material

end Gleam

namespace Gleam

lemma setUniformsHeader_no_normalMatrix (w h : ℚ) (material : MaterialData) :
    (setUniformsHeader w h material).filter
      (fun e => decide (e.name = "u_NormalMatrix")) = [] := rfl

lemma fogEvents_no_normalMatrix (f : Option Fog) :
    (fogEvents f).filter (fun e => decide (e.name = "u_NormalMatrix")) = [] := by
  rcases f with _ | f
  · rfl
  · rcases f with ⟨c, n, fa⟩ | ⟨c, d⟩ <;> rfl

lemma flatBlockEvents_of_phong (attrs : PA) (material : MaterialData)
    (h : attrs.type = MaterialType.phongMaterial) :
    flatBlockEvents attrs material = [] := by
  simp [flatBlockEvents, h]

lemma shaderBlockEvents_of_phong (attrs : PA) (material : MaterialData)
    (h : attrs.type = MaterialType.phongMaterial) :
    shaderBlockEvents attrs material = [] := by
  simp [shaderBlockEvents, h]

/-- The normal matrix appears in the Phong block exactly when the material
is not flat-shaded (given an active light category). -/
lemma phongBlock_normalMatrix (attrs : PA) (material : MaterialData)
    (hphong : attrs.type = MaterialType.phongMaterial)
    (hlit : (attrs.directionalLights || attrs.pointLights || attrs.spotLights) = true) :
    (phongBlockEvents attrs material).filter
        (fun e => decide (e.name = "u_NormalMatrix")) =
      if attrs.flatShaded then []
      else [SetEvent.setIfExists "u_NormalMatrix"
              (.m3 (.transpose (.inv (.block modelViewExpr))))] := by
  cases hf : attrs.flatShaded <;> cases ht : attrs.textureMap <;>
    simp [phongBlockEvents, hphong, hlit, hf, ht, List.filter_append, SetEvent.name]

/-- C7 (amended): for a drawn Phong-material mesh, `SetUniforms` uploads
the diffuse color, specular color and shininess — and, unless the
material is flat-shaded, the normal matrix, as the inverse-transpose of
the 3×3 block of model-view = view × world — only under the guard that at
least one directional, point or spot light category is active; the
texture slot and transform are uploaded whenever the material is textured
(independently of the light guard). -/
theorem setUniforms_phong_material_uniforms (width height : ℚ) (fog : Option Fog)
    (attrs : PA) (material : MaterialData)
    (hphong : attrs.type = MaterialType.phongMaterial)
    (hlit : (attrs.directionalLights || attrs.pointLights || attrs.spotLights) = true) :
    SetEvent.set "u_Material.DiffuseColor" (.c material.color) ∈
        setUniforms width height fog attrs material ∧
    SetEvent.set "u_Material.SpecularColor" (.c material.specular) ∈
        setUniforms width height fog attrs material ∧
    SetEvent.set "u_Material.Shininess" (.f material.shininess) ∈
        setUniforms width height fog attrs material ∧
    (attrs.flatShaded = false →
        (setUniforms width height fog attrs material).filter
            (fun e => decide (e.name = "u_NormalMatrix")) =
          [SetEvent.setIfExists "u_NormalMatrix"
              (.m3 (.transpose (.inv (.block (.mul .view .world)))))]) ∧
    (attrs.flatShaded = true →
        (setUniforms width height fog attrs material).filter
            (fun e => decide (e.name = "u_NormalMatrix")) = []) ∧
    (attrs.textureMap = true →
        SetEvent.set "u_TextureMap" (.i 0) ∈
            setUniforms width height fog attrs material ∧
        SetEvent.set "u_TextureTransform"
            (.m3 (.texTransform (material.textureMap.getD 0))) ∈
          setUniforms width height fog attrs material) := by
  have hfilter : ∀ b : Bool, attrs.flatShaded = b →
      (setUniforms width height fog attrs material).filter
          (fun e => decide (e.name = "u_NormalMatrix")) =
        (if b then []
         else [SetEvent.setIfExists "u_NormalMatrix"
                 (.m3 (.transpose (.inv (.block modelViewExpr))))]) := by
    intro b hb
    rw [setUniforms]
    simp only [List.filter_append, setUniformsHeader_no_normalMatrix,
      fogEvents_no_normalMatrix, flatBlockEvents_of_phong attrs material hphong,
      shaderBlockEvents_of_phong attrs material hphong,
      phongBlock_normalMatrix attrs material hphong hlit, hb]
    cases b <;> simp
  refine ⟨?_, ?_, ?_, ?_, ?_, ?_⟩
  · simp [setUniforms, phongBlockEvents, hphong, hlit]
  · simp [setUniforms, phongBlockEvents, hphong, hlit]
  · simp [setUniforms, phongBlockEvents, hphong, hlit]
  · intro hfs
    rw [hfilter false hfs]
    rfl
  · intro hfs
    rw [hfilter true hfs]
    rfl
  · intro htex
    constructor <;> simp [setUniforms, phongBlockEvents, hphong, hlit, htex]

/-- A Phong attribute set with a directional light category active, a
texture, and smooth shading. -/
def phongLitAttrs : PA := ⟨.phongMaterial, true, false, true, false, false⟩

/-- A Phong attribute set with no active light category. -/
def phongNoLights : PA := ⟨.phongMaterial, false, false, false, false, false⟩

/-- A concrete Phong material: red diffuse, green specular, shininess 32,
texture id 7, no user uniforms. -/
def demoMaterial : MaterialData := ⟨1, ⟨1, 0, 0⟩, ⟨0, 1, 0⟩, 32, some 7, []⟩

/-- Witness for the Phong uniform theorem at a concrete attribute set,
material, resolution and no fog. -/
theorem setUniforms_phong_material_uniforms_witness :
    SetEvent.set "u_Material.DiffuseColor" (.c demoMaterial.color) ∈
        setUniforms 800 600 none phongLitAttrs demoMaterial ∧
    SetEvent.set "u_Material.SpecularColor" (.c demoMaterial.specular) ∈
        setUniforms 800 600 none phongLitAttrs demoMaterial ∧
    SetEvent.set "u_Material.Shininess" (.f demoMaterial.shininess) ∈
        setUniforms 800 600 none phongLitAttrs demoMaterial ∧
    (phongLitAttrs.flatShaded = false →
        (setUniforms 800 600 none phongLitAttrs demoMaterial).filter
            (fun e => decide (e.name = "u_NormalMatrix")) =
          [SetEvent.setIfExists "u_NormalMatrix"
              (.m3 (.transpose (.inv (.block (.mul .view .world)))))]) ∧
    (phongLitAttrs.flatShaded = true →
        (setUniforms 800 600 none phongLitAttrs demoMaterial).filter
            (fun e => decide (e.name = "u_NormalMatrix")) = []) ∧
    (phongLitAttrs.textureMap = true →
        SetEvent.set "u_TextureMap" (.i 0) ∈
            setUniforms 800 600 none phongLitAttrs demoMaterial ∧
        SetEvent.set "u_TextureTransform"
            (.m3 (.texTransform (demoMaterial.textureMap.getD 0))) ∈
          setUniforms 800 600 none phongLitAttrs demoMaterial) :=
  setUniforms_phong_material_uniforms 800 600 none phongLitAttrs demoMaterial
    rfl rfl

/-- C7 counterexample: a drawn Phong mesh with no active
directional/point/spot light category (for instance a scene with only
ambient light) gets none of the diffuse/specular/shininess/normal-matrix
uniforms — the claim's unconditional "for every drawn mesh with a Phong
material" fails. -/
theorem setUniforms_phong_requires_lights :
    phongNoLights.type = MaterialType.phongMaterial ∧
    phongNoLights.flatShaded = false ∧
    (setUniforms 800 600 none phongNoLights demoMaterial).filter
        (fun e => decide (e.name = "u_Material.DiffuseColor" ∨
                          e.name = "u_Material.SpecularColor" ∨
                          e.name = "u_Material.Shininess" ∨
                          e.name = "u_NormalMatrix")) = [] := by
  refine ⟨rfl, rfl, ?_⟩
  rfl

end Gleam

namespace Gleam

/-! ### `Renderer::Impl::Render` (rebuild decision) -/

/-- The scene state read and written by `Render`: the `touched_` flag.
(The transform-hierarchy update and the clear are external calls that do
not interact with the flag or the lists.) -/
structure SceneState where
  touched : Bool
deriving DecidableEq, Repr

/-- The rebuild step of `Renderer::Impl::Render`: if the scene is touched,
rebuild the render lists via `ProcessScene` (a parameter of type
`SceneState → L`, since `RenderLists::ProcessScene` is outside the
sources) and clear the flag; otherwise keep scene and lists as they are.
Returns the new scene state, the render lists in force for this frame,
and whether `ProcessScene` was invoked. -/
def renderRebuildStep {L : Type} (process : SceneState → L)
    (scene : SceneState) (lists : L) : SceneState × L × Bool :=
  if scene.touched then ({ scene with touched := false }, process scene, true)
  else (scene, lists, false)

/-- C8: `Render` invokes `ProcessScene` iff the scene's touched flag is
set; the flag is false afterwards (cleared immediately after a rebuild);
and when the flag was false the render lists are exactly the previous
frame's. -/
theorem render_rebuild_iff_touched {L : Type} (process : SceneState → L)
    (scene : SceneState) (lists : L) :
    ((renderRebuildStep process scene lists).2.2 = true ↔ scene.touched = true) ∧
    (renderRebuildStep process scene lists).1.touched = false ∧
    (renderRebuildStep process scene lists).2.1 =
      (if scene.touched then process scene else lists) := by
  by_cases h : scene.touched <;> simp [renderRebuildStep, h]

/-! ### Frustum visibility (`Renderer::Impl::IsVisible`) -/

/-- A bounding sphere: center and radius. -/
structure Sphere where
  center : Vec3
  radius : ℚ
deriving DecidableEq, Repr

/-- A plane `n·p + d = 0`; `distanceToPoint` is the signed distance of a
point from the plane. -/
structure Plane where
  normal : Vec3
  d : ℚ
deriving DecidableEq, Repr

def Plane.distanceToPoint (pl : Plane) (p : Vec3) : ℚ :=
  pl.normal.x * p.x + pl.normal.y * p.y + pl.normal.z * p.z + pl.d

/-- Modelled from the spec: the `Frustum` class (6 planes derived from the
view-projection matrix) is not among the sources — only its caller
`Renderer::Impl::IsVisible` is. Per §4.4, it holds 6 planes. -/
structure Frustum where
  planes : Fin 6 → Plane

/-- Modelled from the spec: `Frustum::IntersectsWithSphere` returns true
iff for every one of the 6 planes the signed distance from the plane to
the sphere center is at least `−radius` (a single plane violation yields
false). -/
def Frustum.intersectsWithSphere (fr : Frustum) (s : Sphere) : Bool :=
  (List.finRange 6).all
    (fun i => decide (-s.radius ≤ (fr.planes i).distanceToPoint s.center))

/-- C9: the visibility test accepts a sphere iff no plane has it entirely
behind (signed distance ≥ −radius for all 6 planes, so a sphere exactly
touching a plane boundary at distance −radius is visible), and rejects it
iff some single plane has the center strictly beyond −radius. -/
theorem frustum_sphere_visibility (fr : Frustum) (s : Sphere) :
    (fr.intersectsWithSphere s = true ↔
      ∀ i : Fin 6, -s.radius ≤ (fr.planes i).distanceToPoint s.center) ∧
    (fr.intersectsWithSphere s = false ↔
      ∃ i : Fin 6, (fr.planes i).distanceToPoint s.center < -s.radius) := by
  constructor
  · simp [Frustum.intersectsWithSphere, List.all_eq_true, List.mem_finRange]
  · rw [← Bool.not_eq_true]
    simp [Frustum.intersectsWithSphere, List.all_eq_true, List.mem_finRange]

end Gleam

namespace Gleam

/-! ### `Vector3::Normalize` and the free `Normalize`

Components are reals (floats in the source). `Vector3::Length` is declared
in the header but defined outside the sources; it is modelled as the
Euclidean magnitude, which both `Normalize` implementations compare
against `0.0f` before dividing. -/

/-- A 3D vector with real components. -/
structure Vector3 where
  x : ℝ
  y : ℝ
  z : ℝ

/-- `Vector3::Zero()`: all components zero. -/
def Vector3.zero : Vector3 := ⟨0, 0, 0⟩

/-- The squared magnitude `x² + y² + z²`. -/
def Vector3.lengthSquared (v : Vector3) : ℝ := v.x * v.x + v.y * v.y + v.z * v.z

/-- Modelled from the spec: `Vector3::Length` (the magnitude; declared in
the header, defined outside the sources) is `sqrt(x² + y² + z²)`. -/
noncomputable def Vector3.length (v : Vector3) : ℝ := Real.sqrt v.lengthSquared

/-- `operator*=(float)` (and the free `operator*`): component-wise scaling. -/
def Vector3.smul (v : Vector3) (n : ℝ) : Vector3 := ⟨v.x * n, v.y * n, v.z * n⟩

open Classical in
/-- The member `Vector3::Normalize`: if the length is zero return the
vector unchanged, otherwise scale it by `1 / length` in place. -/
noncomputable def Vector3.normalizeMember (v : Vector3) : Vector3 :=
  if v.length = 0 then v else v.smul (1 / v.length)

open Classical in
/-- The free function `Normalize(v)`: if the length is zero return
`Vector3::Zero()`, otherwise return `v * (1 / length)`. -/
noncomputable def normalizeFree (v : Vector3) : Vector3 :=
  if v.length = 0 then Vector3.zero else v.smul (1 / v.length)

/-- A zero length forces every component to be zero. -/
lemma Vector3.eq_zero_of_length_eq_zero (v : Vector3) (h : v.length = 0) :
    v = Vector3.zero := by
  have hsq : v.lengthSquared = 0 := by
    have hnn : 0 ≤ v.lengthSquared := by
      have := mul_self_nonneg v.x
      have := mul_self_nonneg v.y
      have := mul_self_nonneg v.z
      unfold Vector3.lengthSquared
      linarith
    have hle : v.lengthSquared ≤ 0 := by
      by_contra hc
      push_neg at hc
      have := Real.sqrt_pos.mpr hc
      rw [Vector3.length] at h
      linarith
    linarith
  have hx : v.x = 0 := by
    have := mul_self_nonneg v.y
    have := mul_self_nonneg v.z
    have hx2 : v.x * v.x = 0 := by
      unfold Vector3.lengthSquared at hsq
      nlinarith [mul_self_nonneg v.x]
    exact mul_self_eq_zero.mp hx2
  have hy : v.y = 0 := by
    have := mul_self_nonneg v.x
    have := mul_self_nonneg v.z
    have hy2 : v.y * v.y = 0 := by
      unfold Vector3.lengthSquared at hsq
      nlinarith [mul_self_nonneg v.y]
    exact mul_self_eq_zero.mp hy2
  have hz : v.z = 0 := by
    have := mul_self_nonneg v.x
    have := mul_self_nonneg v.y
    have hz2 : v.z * v.z = 0 := by
      unfold Vector3.lengthSquared at hsq
      nlinarith [mul_self_nonneg v.z]
    exact mul_self_eq_zero.mp hz2
  cases v
  simp_all [Vector3.zero]

/-- C10: neither `Normalize` ever divides by zero — on a zero-length
vector the member version returns the vector unchanged (and that vector
is the zero vector), the free version returns `Vector3::Zero()`; on a
vector of nonzero length both scale the vector by `1 / length`. -/
theorem vector3_normalize_total (v : Vector3) :
    (v.length = 0 →
        v.normalizeMember = v ∧ normalizeFree v = Vector3.zero ∧ v = Vector3.zero) ∧
    (v.length ≠ 0 →
        v.normalizeMember = v.smul (1 / v.length) ∧
        normalizeFree v = v.smul (1 / v.length)) := by
  constructor
  · intro h
    refine ⟨?_, ?_, v.eq_zero_of_length_eq_zero h⟩
    · rw [Vector3.normalizeMember, if_pos h]
    · rw [normalizeFree, if_pos h]
  · intro h
    constructor
    · rw [Vector3.normalizeMember, if_neg h]
    · rw [normalizeFree, if_neg h]

/-- Witness: the zero vector has length 0 and normalizes to itself (and to
`Vector3::Zero()` under the free function); a unit vector has nonzero
length and is scaled by `1 / length`. -/
theorem vector3_normalize_total_witness :
    ((Vector3.zero.length = 0 ∧
        Vector3.zero.normalizeMember = Vector3.zero ∧
        normalizeFree Vector3.zero = Vector3.zero) ∧
     ((⟨1, 0, 0⟩ : Vector3).length ≠ 0 ∧
        (⟨1, 0, 0⟩ : Vector3).normalizeMember =
          (⟨1, 0, 0⟩ : Vector3).smul (1 / (⟨1, 0, 0⟩ : Vector3).length))) := by
  have h0 : Vector3.zero.length = 0 := by
    simp [Vector3.length, Vector3.lengthSquared, Vector3.zero]
  have h1 : (⟨1, 0, 0⟩ : Vector3).length ≠ 0 := by
    simp [Vector3.length, Vector3.lengthSquared]
  refine ⟨⟨h0, ?_, ?_⟩, h1, ?_⟩
  · exact ((vector3_normalize_total Vector3.zero).1 h0).1
  · exact ((vector3_normalize_total Vector3.zero).1 h0).2.1
  · exact ((vector3_normalize_total ⟨1, 0, 0⟩).2 h1).1

end Gleam
